import Mathlib

/-
Verification of the aspectnova API-client core: a shallow embedding of
the authenticated HTTP client (src/api/client.ts), the refresh
coordinator, the token store (src/lib/secure-store.ts), the resource API
layer (src/lib/pdfApi.ts with the zod schemas of src/types/pdf.ts), and
the reader store's signed-URL cache (store module, resolvePageUrl).
Strings are modelled as lists of characters; JavaScript numbers as
rationals (JSON-parsed numbers are always finite); fallible operations
return Except or Option values.
-/

namespace AspectNova

/- ===================== String helpers ===================== -/

/-- Characters admitted by the scheme body of the absolute-URI regex in
toURL, the class written as letters, digits, plus, dot and dash,
case-insensitively (client.ts line 207). -/
def isSchemeChar (c : Char) : Bool :=
  c.isAlphanum || c = '+' || c = '.' || c = '-'

/-- Scanner for the part of the regex after its leading letter: succeeds
exactly when some run of scheme characters is followed by the literal
"://". Since a colon is not a scheme character the scan is
deterministic and matches the regex precisely. -/
def schemeScan : List Char → Bool
  | ':' :: '/' :: '/' :: _ => true
  | c :: rest => isSchemeChar c && schemeScan rest
  | [] => false

/-- Embeds the anchored test of toURL (client.ts line 207): a leading
letter, then scheme characters, then "://"; the rest of the string is
unconstrained. -/
def isAbsoluteUrl : List Char → Bool
  | c :: rest => c.isAlpha && schemeScan rest
  | [] => false

/-- Embeds BASE_URL.replace of the trailing-slash run with the empty
string (client.ts line 208). -/
def stripTrailingSlashes (s : List Char) : List Char :=
  (s.reverse.dropWhile (fun c => c = '/')).reverse

/-- Embeds input.replace of the leading-slash run with the empty string
(client.ts line 209). -/
def stripLeadingSlashes (s : List Char) : List Char :=
  s.dropWhile (fun c => c = '/')

/-- Embeds toURL (client.ts lines 206-211): absolute URLs pass through
verbatim, anything else is joined to the base with a single slash. -/
def toURL (baseUrl input : List Char) : List Char :=
  if isAbsoluteUrl input then input
  else stripTrailingSlashes baseUrl ++ '/' :: stripLeadingSlashes input

/- ===================== Token store (secure-store.ts) ===================== -/

/-- Platform configuration of the token store backing mechanism
(secure-store.ts): native Expo SecureStore (with availability of the
store and whether its read/write calls throw), web in-memory (the
default when WEB_PERSIST is off), and web sessionStorage persistence
(WEB_PERSIST on; blocked models a sessionStorage whose accesses throw,
e.g. private browsing). -/
inductive StoreCfg where
  | native (available : Bool) (readThrows : Bool) (writeThrows : Bool)
  | webMemory
  | webSession (blocked : Bool)
deriving DecidableEq

/-- Backing state of the token store: the module-level inMemoryToken,
the sessionStorage slot for ACCESS_TOKEN_KEY, and the SecureStore
content for that key. -/
structure StoreState where
  inMemoryToken : Option (List Char)
  sessionVal : Option (List Char)
  secureVal : Option (List Char)
deriving DecidableEq

/-- Embeds secure.getItemAsync (secure-store.ts lines 126-146) at
ACCESS_TOKEN_KEY. Web with persistence reads sessionStorage and falls
back to the in-memory token when the read throws; plain web reads the
in-memory token; native returns null when SecureStore is unavailable or
its read throws, and the stored value otherwise. Totality of this
function is the model of reads never propagating an exception. -/
def getItemAsync : StoreCfg → StoreState → Option (List Char)
  | .webSession blocked, st => if blocked then st.inMemoryToken else st.sessionVal
  | .webMemory, st => st.inMemoryToken
  | .native available readThrows _, st =>
      if !available then none
      else if readThrows then none
      else st.secureVal

/-- Embeds secure.setItemAsync (secure-store.ts lines 149-180) at
ACCESS_TOKEN_KEY; a null value deletes. Web with persistence writes
sessionStorage and mirrors to memory, falling back to memory alone when
the write throws; plain web writes memory; native silently does nothing
when SecureStore is unavailable or the write throws. Cross-tab
broadcast is out of scope. -/
def setItemAsync : StoreCfg → StoreState → Option (List Char) → StoreState
  | .webSession blocked, st, v =>
      if blocked then { st with inMemoryToken := v }
      else { st with sessionVal := v, inMemoryToken := v }
  | .webMemory, st, v => { st with inMemoryToken := v }
  | .native available _ writeThrows, st, v =>
      if !available then st
      else if writeThrows then st
      else { st with secureVal := v }

/-- Embeds secure.deleteItemAsync (secure-store.ts lines 183-204) at
ACCESS_TOKEN_KEY. -/
def deleteItemAsync : StoreCfg → StoreState → StoreState
  | .webSession blocked, st =>
      { st with sessionVal := if blocked then st.sessionVal else none
              , inMemoryToken := none }
  | .webMemory, st => { st with inMemoryToken := none }
  | .native available _ writeThrows, st =>
      if !available then st
      else if writeThrows then st
      else { st with secureVal := none }

/- ===================== Refresh coordinator (client.ts 297-336) ===================== -/

/-- Visible events of the refresh coordinator under the single-threaded
event-loop model: a call to refreshAccessToken by some caller, and the
settlement of the outstanding refresh with its result (the new token on
success, null on failure, missing token or thrown error). The body of
refreshAccessToken up to and including the assignment of refreshPromise
runs synchronously (its IIFE suspends only at the fetch), so a call is
a single atomic event. -/
inductive RefreshEvent where
  | call (caller : Nat)
  | settle (result : Option (List Char))
deriving DecidableEq

/-- Coordinator state: refreshPromise is the identifier of the
outstanding promise (the module-level slot of client.ts line 297),
nextId supplies fresh promise identities, httpRefreshCount counts POSTs
to /auth/refresh, storedToken is the token store content, awaits
records which caller received which promise, and results the settled
value of each promise. -/
structure CoordState where
  refreshPromise : Option Nat
  nextId : Nat
  httpRefreshCount : Nat
  storedToken : Option (List Char)
  awaits : List (Nat × Nat)
  results : List (Nat × Option (List Char))
deriving DecidableEq

def initCoord : CoordState :=
  { refreshPromise := none, nextId := 0, httpRefreshCount := 0,
    storedToken := none, awaits := [], results := [] }

/-- Embeds the synchronous prefix of refreshAccessToken (client.ts
lines 299-335): when refreshPromise is set the caller simply receives
that same promise; otherwise a new promise is created, stored in the
slot, and its fetch to /auth/refresh is issued (counted here). Returns
the updated state and the promise the caller awaits. -/
def refreshCall (s : CoordState) (caller : Nat) : CoordState × Nat :=
  match s.refreshPromise with
  | some p => ({ s with awaits := (caller, p) :: s.awaits }, p)
  | none =>
      let p := s.nextId
      ({ s with refreshPromise := some p
              , nextId := p + 1
              , httpRefreshCount := s.httpRefreshCount + 1
              , awaits := (caller, p) :: s.awaits }, p)

/-- Embeds the settlement of the outstanding refresh (client.ts lines
316-332): on a token the store is updated, on null it is untouched; the
finally block clears refreshPromise in every case, and the result is
recorded for everyone awaiting the promise. A settle with no refresh in
flight changes nothing. -/
def refreshSettle (s : CoordState) (result : Option (List Char)) : CoordState :=
  match s.refreshPromise with
  | some p =>
      { s with refreshPromise := none
             , storedToken := match result with
                 | some t => some t
                 | none => s.storedToken
             , results := (p, result) :: s.results }
  | none => s

def coordStep (s : CoordState) : RefreshEvent → CoordState
  | .call c => (refreshCall s c).1
  | .settle r => refreshSettle s r

def runCoord (events : List RefreshEvent) : CoordState :=
  events.foldl coordStep initCoord

/-- Result observed by an await registered on promise p once the state
has settled it. -/
def promiseResult (s : CoordState) (p : Nat) : Option (Option (List Char)) :=
  (s.results.find? (fun pr => pr.1 == p)).map (fun pr => pr.2)

/-- Scenario trace of the spec: one caller triggers the refresh, n
others call while it is in flight, then the refresh settles with
result r. -/
def refreshTrace (first : Nat) (callers : List Nat) (r : Option (List Char)) :
    List RefreshEvent :=
  RefreshEvent.call first :: callers.map RefreshEvent.call ++ [RefreshEvent.settle r]

/- ===================== JSON values ===================== -/

/-- JSON-like values as delivered by safeJson: JSON cannot carry NaN or
infinities, so numbers are rationals. Objects are field lists looked up
by key (JavaScript property access). -/
inductive JVal where
  | null
  | bool (b : Bool)
  | num (q : ℚ)
  | str (s : List Char)
  | arr (elems : List JVal)
  | obj (fields : List (List Char × JVal))

/-- Uniform error shape of the client (client.ts APIError): message,
HTTP status, originating URL and optional payload; for shape-validation
errors the payload records the value whose validation failed, standing
for the zod diagnostics attached by parseOrThrow. -/
structure APIErrM where
  message : List Char
  status : Nat
  url : List Char
  data : Option JVal

/- ===================== HTTP client core (client.ts apiFetch) ===================== -/

/-- Caller-supplied options record; absent fields fall back to
DEFAULT_FETCH_OPTS under the spread merge of apiFetch line 367. -/
structure ApiFetchOptions where
  auth : Option Bool
  retryOn401 : Option Bool
  throwOnHTTPError : Option Bool
  timeoutMs : Option Nat
  idempotentRetries : Option Nat
deriving DecidableEq

/-- Options with every default applied. -/
structure MergedOpts where
  auth : Bool
  retryOn401 : Bool
  throwOnHTTPError : Bool
  timeoutMs : Nat
  idempotentRetries : Nat
deriving DecidableEq

/-- Embeds the spread merge with DEFAULT_FETCH_OPTS (client.ts lines
351-359 and 367). -/
def mergeOpts (o : ApiFetchOptions) : MergedOpts :=
  { auth := o.auth.getD true
  , retryOn401 := o.retryOn401.getD true
  , throwOnHTTPError := o.throwOnHTTPError.getD true
  , timeoutMs := o.timeoutMs.getD 20000
  , idempotentRetries := o.idempotentRetries.getD 2 }

/-- Embeds Response.ok: status in the 2xx range. -/
def statusOk (s : Nat) : Bool :=
  decide (200 ≤ s) && decide (s ≤ 299)

/-- The transient status set of apiFetch (client.ts line 378). -/
def transientStatuses : List Nat := [408, 425, 429, 500, 502, 503, 504]

/-- Embeds isTransient (client.ts lines 429-430). -/
def isTransient (code : Nat) : Bool :=
  transientStatuses.contains code

/-- One issued network attempt: the bearer token attached in the
Authorization header (none when absent) and the status that came back. -/
structure AttemptRecord where
  authHeader : Option (List Char)
  status : Nat
deriving DecidableEq

/-- Behaviour of the /auth/refresh endpoint for this run: whether the
response was ok (a thrown fetch folds into ok = false, both yield null
in refreshAccessToken) and the accessToken field of its body. -/
structure RefreshEnv where
  ok : Bool
  accessToken : Option (List Char)
deriving DecidableEq

/-- Value await refreshAccessToken() delivers to apiFetch (client.ts
lines 316-326): null unless the response was ok and carried
accessToken. -/
def refreshOutcome (re : RefreshEnv) : Option (List Char) :=
  if re.ok then re.accessToken else none

/-- Embeds the initial Authorization computation (client.ts lines
370-373): the token is read only when auth is on, and the header is set
only when a token is present. -/
def initialAuth (opts : MergedOpts) (storedToken : Option (List Char)) :
    Option (List Char) :=
  let token := if opts.auth then storedToken else none
  if opts.auth && token.isSome then token else none

/-- Embeds the idempotent-backoff while loop (client.ts lines 432-457).
Arguments after the colon: the index of the next fetch in the
environment, the current response status, and remainingIdempotent.
optRetries is the caller's idempotentRetries with default applied, used
by the attempt-numbering expression of lines 433-436. currentHeaders is
never modified inside the loop, hence authH is threaded unchanged.
Returns the attempts issued by the loop, the waits performed before
each retry, and the final status. -/
def backoffLoop (env : Nat → Nat) (isGet : Bool) (optRetries : Nat)
    (authH : Option (List Char)) :
    Nat → Nat → Nat → List AttemptRecord × List Nat × Nat
  | _, status, 0 => ([], [], status)
  | idx, status, r + 1 =>
    if !statusOk status && isGet && isTransient status then
      let attempt := optRetries - (r + 1) + 1
      let waitMs := min (1500 * attempt) 4000
      let status2 := env idx
      let rest := backoffLoop env isGet optRetries authH (idx + 1) status2 r
      (⟨authH, status2⟩ :: rest.1, waitMs :: rest.2.1, rest.2.2)
    else ([], [], status)

/-- Pre-loop phase of apiFetch: the attempts issued before the backoff
loop, the headers current at loop entry, the next environment index,
the status at loop entry, and how many times refreshAccessToken was
invoked. -/
structure PrePhase where
  attempts : List AttemptRecord
  auth : Option (List Char)
  idx : Nat
  status : Nat
  refreshCalls : Nat

/-- Embeds the initial request plus the 401-refresh-retry block of
apiFetch (client.ts lines 394-426): on a 401 with retryOn401 the
coordinator is invoked once; only when it yields a token are the
headers rebuilt with the new bearer token and the request re-issued
exactly once. -/
def prePhase (opts : MergedOpts) (auth0 : Option (List Char))
    (re : RefreshEnv) (env : Nat → Nat) : PrePhase :=
  let s0 := env 0
  if s0 = 401 ∧ opts.retryOn401 = true then
    match refreshOutcome re with
    | some t => ⟨[⟨auth0, s0⟩, ⟨some t, env 1⟩], some t, 2, env 1, 1⟩
    | none => ⟨[⟨auth0, s0⟩], auth0, 1, s0, 1⟩
  else ⟨[⟨auth0, s0⟩], auth0, 1, s0, 0⟩

/-- Token-store content after apiFetch: refreshAccessToken persists the
new token exactly when the refresh yielded one (client.ts lines
320-322); otherwise the store is untouched. -/
def tokenAfterFetch (opts : MergedOpts) (storedToken : Option (List Char))
    (re : RefreshEnv) (env : Nat → Nat) : Option (List Char) :=
  if env 0 = 401 ∧ opts.retryOn401 = true then
    match refreshOutcome re with
    | some t => some t
    | none => storedToken
  else storedToken

/-- Observable result of one apiFetch run. -/
structure FetchResult where
  preAttempts : List AttemptRecord
  backoffAttempts : List AttemptRecord
  loopAuth : Option (List Char)
  waits : List Nat
  refreshCalls : Nat
  tokenAfter : Option (List Char)
  finalStatus : Nat
  outcome : Except APIErrM Nat

/-- Embeds the method normalization of apiFetch line 376. -/
def methodUpper (method : Option (List Char)) : List Char :=
  (method.getD "GET".data).map Char.toUpper

/-- Embeds isGet (client.ts line 377). -/
def isGetMethod (method : Option (List Char)) : Bool :=
  methodUpper method == "GET".data

/-- The backoff loop of one apiFetch run, entered from the pre-loop
phase with remainingIdempotent = idempotentRetries for GET and 0
otherwise (client.ts line 379). -/
def apiFetchLoop (o : ApiFetchOptions) (method : Option (List Char))
    (storedToken : Option (List Char)) (re : RefreshEnv) (env : Nat → Nat) :
    List AttemptRecord × List Nat × Nat :=
  backoffLoop env (isGetMethod method) (o.idempotentRetries.getD 2)
    (prePhase (mergeOpts o) (initialAuth (mergeOpts o) storedToken) re env).auth
    (prePhase (mergeOpts o) (initialAuth (mergeOpts o) storedToken) re env).idx
    (prePhase (mergeOpts o) (initialAuth (mergeOpts o) storedToken) re env).status
    (if isGetMethod method then (mergeOpts o).idempotentRetries else 0)

/-- Embeds apiFetch (client.ts lines 362-466) over an environment env
giving the status of the i-th fetch issued for this request, a refresh
endpoint behaviour re, and the token currently stored. The method is
uppercased with a GET default; the response body read by safeJson on an
HTTP error is out of scope and recorded as none. -/
def apiFetchModel (baseUrl input : List Char) (o : ApiFetchOptions)
    (method : Option (List Char)) (storedToken : Option (List Char))
    (re : RefreshEnv) (env : Nat → Nat) : FetchResult :=
  { preAttempts :=
      (prePhase (mergeOpts o) (initialAuth (mergeOpts o) storedToken) re env).attempts
  , backoffAttempts := (apiFetchLoop o method storedToken re env).1
  , loopAuth :=
      (prePhase (mergeOpts o) (initialAuth (mergeOpts o) storedToken) re env).auth
  , waits := (apiFetchLoop o method storedToken re env).2.1
  , refreshCalls :=
      (prePhase (mergeOpts o) (initialAuth (mergeOpts o) storedToken) re env).refreshCalls
  , tokenAfter := tokenAfterFetch (mergeOpts o) storedToken re env
  , finalStatus := (apiFetchLoop o method storedToken re env).2.2
  , outcome :=
      if (mergeOpts o).throwOnHTTPError
          && !statusOk (apiFetchLoop o method storedToken re env).2.2 then
        Except.error ⟨"HTTP error".data, (apiFetchLoop o method storedToken re env).2.2,
          toURL baseUrl input, none⟩
      else Except.ok (apiFetchLoop o method storedToken re env).2.2 }

/-- Status surfaced to the caller: the status of the thrown APIError or
of the returned response. -/
def surfacedStatus (r : FetchResult) : Nat :=
  match r.outcome with
  | .ok s => s
  | .error e => e.status

/- ===================== Reader store signed-URL cache ===================== -/

/-- Page cache entry of the reader store: url plus the optional ISO
expiry string from the backend. -/
structure PageCacheEntry where
  url : List Char
  expiresAt : Option (List Char)
deriving DecidableEq

/-- The fields of PdfDetail the cache logic reads: id, pages, and the
optional static page-URL list whose entries may be missing (sparse
array slots are none). -/
structure PdfDetailM where
  id : List Char
  pages : Nat
  pageUrls : Option (List (Option (List Char)))
deriving DecidableEq

/-- Reader store state relevant to resolvePageUrl: the open document
and the per-document page cache keyed by 1-based page number. The
record is modelled as an association list whose most recent binding
shadows older ones, matching the spread update of the store. -/
structure ReaderStateM where
  current : Option PdfDetailM
  pageCache : List (Nat × PageCacheEntry)
deriving DecidableEq

/-- Successful response of the page-url endpoint as consumed by
resolvePageUrl (url plus optional expiresAt). -/
structure PageUrlRespM where
  url : List Char
  expiresAt : Option (List Char)
deriving DecidableEq

/-- Embeds isExpired (reader store lines 82-87): entries without
expiresAt never expire; a Date.parse failure (NaN, modelled by the
parse oracle returning none) also yields false; otherwise the entry is
expired when the parsed time minus the skew is at or before now. -/
def isExpired (parse : List Char → Option Int) (now : Int)
    (expiresAt : Option (List Char)) (skewSeconds : Int) : Bool :=
  match expiresAt with
  | none => false
  | some s =>
    match parse s with
    | none => false
    | some t => decide (t - skewSeconds * 1000 ≤ now)

/-- JavaScript property read state.pageCache[page]. -/
def cacheLookup (c : List (Nat × PageCacheEntry)) (p : Nat) : Option PageCacheEntry :=
  (c.find? (fun kv => kv.1 == p)).map (fun kv => kv.2)

/-- Spread update of the cache record at one page. -/
def cacheSet (c : List (Nat × PageCacheEntry)) (p : Nat) (e : PageCacheEntry) :
    List (Nat × PageCacheEntry) :=
  (p, e) :: c

/-- JavaScript array element assignment nextPageUrls[i] = v, which
extends a too-short array with holes. -/
def listSetExtend (l : List (Option (List Char))) (i : Nat) (v : List Char) :
    List (Option (List Char)) :=
  if i < l.length then l.set i (some v)
  else l ++ List.replicate (i - l.length) none ++ [some v]

/-- Outcome of one resolvePageUrl run: the returned url with the store
state left behind and whether the page-url endpoint was called, or the
thrown error with the state left behind. -/
inductive ResolveOutcome where
  | ok (url : List Char) (st : ReaderStateM) (networkCalled : Bool)
  | err (msg : List Char) (st : ReaderStateM)
deriving DecidableEq

/-- Embeds the part of resolvePageUrl from the awaited safeGetPageUrl
on (reader store lines 308-336): stA is the store state observed after
the await. A document change throws before any mutation; otherwise the
set closure re-checks the document, backfills pageUrls at the resolved
index and stores the fresh entry. -/
def resolveFetchPath (page : Nat) (docId : List Char) (resp : PageUrlRespM)
    (stA : ReaderStateM) : ResolveOutcome :=
  if stA.current.map PdfDetailM.id ≠ some docId then
    .err "Document changed".data stA
  else
    match stA.current with
    | some current =>
      if current.id = docId then
        let totalPages := max 1 current.pages
        let nextPageUrls :=
          match current.pageUrls with
          | some l => listSetExtend l (page - 1) resp.url
          | none => listSetExtend (List.replicate totalPages none) (page - 1) resp.url
        .ok resp.url
          { current := some { current with pageUrls := some nextPageUrls }
          , pageCache := cacheSet stA.pageCache page ⟨resp.url, resp.expiresAt⟩ } true
      else .ok resp.url stA true
    | none => .ok resp.url stA true

/-- Embeds the clamp Math.max(1, Math.min(n, total)) of resolvePageUrl
line 285; the requested page may be any JavaScript number, modelled
here as an integer. -/
def clampPage (n : Int) (total : Nat) : Nat :=
  (max 1 (min n (total : Int))).toNat

/-- Embeds resolvePageUrl (reader store lines 279-337). parse is the
Date.parse oracle, now the clock, st the state at entry, n the
requested page, resp the value a successful safeGetPageUrl would
deliver, and stA the state observed after that await (the paths that
never await ignore it, as nothing can interleave before the first
await in the single-threaded model). -/
def resolvePageUrl (parse : List Char → Option Int) (now : Int)
    (st : ReaderStateM) (n : Int) (resp : PageUrlRespM) (stA : ReaderStateM) :
    ResolveOutcome :=
  match st.current with
  | none => .err "No document is open.".data st
  | some cur =>
    let total := cur.pages
    let page := clampPage n total
    let docId := cur.id
    match cacheLookup st.pageCache page with
    | some cached =>
      if !isExpired parse now cached.expiresAt 20 then .ok cached.url st false
      else resolveFetchPath page docId resp stA
    | none =>
      match cur.pageUrls with
      | some l =>
        match l[(page - 1)]? with
        | some (some staticUrl) =>
          if staticUrl.length > 0 then
            .ok staticUrl
              { st with pageCache := cacheSet st.pageCache page ⟨staticUrl, none⟩ }
              false
          else resolveFetchPath page docId resp stA
        | _ => resolveFetchPath page docId resp stA
      | none => resolveFetchPath page docId resp stA

/-- Static page-URL list entry usable by step 3 of resolvePageUrl: a
present, non-empty string at the page's index. -/
def staticAt (cur : PdfDetailM) (page : Nat) : Option (List Char) :=
  match cur.pageUrls with
  | some l =>
    match l[(page - 1)]? with
    | some (some s) => if s.length > 0 then some s else none
    | _ => none
  | none => none

/- ===================== getPageUrl guard and hints (pdfApi.ts) ===================== -/

/-- JavaScript numbers as far as the page guard of getPageUrl can
distinguish them: NaN, the two infinities, and finite values modelled
as rationals. -/
inductive JsNum where
  | nan
  | posInf
  | negInf
  | finite (q : ℚ)
deriving DecidableEq

/-- Embeds Number.isFinite. -/
def JsNum.isFiniteB : JsNum → Bool
  | .finite _ => true
  | _ => false

/-- Embeds the comparison page < 1 (false on NaN). -/
def JsNum.ltOne : JsNum → Bool
  | .finite q => decide (q < 1)
  | .negInf => true
  | _ => false

/-- Embeds the comparison n > 0 used for dpr. -/
def JsNum.gtZero : JsNum → Bool
  | .finite q => decide (0 < q)
  | .posInf => true
  | _ => false

/-- Embeds Math.round: halves round towards positive infinity. -/
def jsRound (q : ℚ) : Int :=
  Int.floor (q + 1 / 2)

/-- Embeds clampInt (pdfApi.ts lines 200-201). -/
def clampIntModel (n : Option JsNum) (minV : Int) : Option Int :=
  match n with
  | some (.finite q) => some (max minV (jsRound q))
  | _ => none

/-- Embeds clampQuality (pdfApi.ts lines 203-206). -/
def clampQualityModel (n : Option JsNum) : Option Int :=
  match n with
  | some (.finite q) => some (min 100 (max 1 (jsRound q)))
  | _ => none

/-- Rendering hints of getPageUrl (PageUrlRequestHints). -/
structure PageUrlHints where
  w : Option JsNum
  h : Option JsNum
  dpr : Option JsNum
  quality : Option JsNum
deriving DecidableEq

/-- Embeds the qs construction of getPageUrl (pdfApi.ts lines 315-328):
clamped w and h, dpr passed through when positive, clamped quality
under the key q, in that insertion order, with undefined values
skipped (stringified numbers are never empty). -/
def buildPageQuery (hints : Option PageUrlHints) : List (List Char × JsNum) :=
  (match clampIntModel (hints.bind PageUrlHints.w) 1 with
   | some v => [("w".data, JsNum.finite (v : ℚ))]
   | none => [])
  ++ (match clampIntModel (hints.bind PageUrlHints.h) 1 with
      | some v => [("h".data, JsNum.finite (v : ℚ))]
      | none => [])
  ++ (match hints.bind PageUrlHints.dpr with
      | some x => if x.gtZero then [("dpr".data, x)] else []
      | none => [])
  ++ (match clampQualityModel (hints.bind PageUrlHints.quality) with
      | some v => [("q".data, JsNum.finite (v : ℚ))]
      | none => [])

/-- Request descriptor getPageUrlM would hand to the HTTP client: the
document id, the (finite) page and the query entries. Producing one of
these is the model of a network request being issued. -/
structure PageUrlRequest where
  id : List Char
  page : ℚ
  query : List (List Char × JsNum)
deriving DecidableEq

/-- Stands for the JavaScript String() conversion in the template of
the guard's url; only its shape matters to the claims. -/
def jsNumToChars : JsNum → List Char
  | .nan => "NaN".data
  | .posInf => "Infinity".data
  | .negInf => "-Infinity".data
  | .finite q => (toString q).data

/-- Url carried by the guard's APIError (pdfApi.ts line 303);
encodeURIComponent is a runtime builtin and is modelled as the
identity, which no claim constrains. -/
def pageGuardUrl (id : List Char) (page : JsNum) : List Char :=
  "/pdfs/".data ++ id ++ "/pages/".data ++ jsNumToChars page ++ "/url".data

/-- Finite value of a page that passed the guard. -/
def JsNum.ratValue : JsNum → ℚ
  | .finite q => q
  | _ => 0

/-- Embeds getPageUrl up to the request construction (pdfApi.ts lines
293-333): the local guard rejects non-finite pages and pages below 1
with a status-400 APIError before any request descriptor exists. -/
def getPageUrlM (id : List Char) (page : JsNum) (hints : Option PageUrlHints) :
    Except APIErrM PageUrlRequest :=
  if (!JsNum.isFiniteB page || JsNum.ltOne page) then
    Except.error
      ⟨"Page must be an integer >= 1".data, 400, pageGuardUrl id page, none⟩
  else
    Except.ok ⟨id, page.ratValue, buildPageQuery hints⟩

/- ============ zod schemas and normalizers (types/pdf.ts, pdfApi.ts) ============ -/

/-- Embeds String.prototype.trim as applied by the UrlLike transform. -/
def trimChars (s : List Char) : List Char :=
  ((s.dropWhile Char.isWhitespace).reverse.dropWhile Char.isWhitespace).reverse

/-- Case-insensitive prefix test against a lowercase pattern. -/
def startsWithCI (pre s : List Char) : Bool :=
  (s.take pre.length).map Char.toLower == pre

/-- Embeds URL_LIKE_RE (types/pdf.ts line 5): http(s)://, data:image/,
blob:, file: or asset: prefixes, case-insensitively. -/
def urlLikeTest (s : List Char) : Bool :=
  startsWithCI "http://".data s || startsWithCI "https://".data s ||
  startsWithCI "data:image/".data s || startsWithCI "blob:".data s ||
  startsWithCI "file:".data s || startsWithCI "asset:".data s

/-- Embeds the UrlLike schema (types/pdf.ts lines 7-11): min(1) on the
raw string, then URL_LIKE_RE on the trimmed string. The trimmed output
of the transform is not tracked: the claims concern validation
outcomes, not payloads after parsing. -/
def checkUrlLike (s : List Char) : Bool :=
  decide (1 ≤ s.length) && urlLikeTest (trimChars s)

def takeDigits : Nat → List Char → Option (List Char)
  | 0, cs => some cs
  | k + 1, c :: cs => if c.isDigit then takeDigits k cs else none
  | _ + 1, [] => none

def expectChar (c : Char) : List Char → Option (List Char)
  | d :: cs => if d = c then some cs else none
  | [] => none

def fracOpt : List Char → Option (List Char)
  | '.' :: cs =>
    if (cs.takeWhile Char.isDigit).isEmpty then none
    else some (cs.dropWhile Char.isDigit)
  | cs => some cs

def datetimeScan (s : List Char) : Option (List Char) := do
  let r ← takeDigits 4 s
  let r ← expectChar '-' r
  let r ← takeDigits 2 r
  let r ← expectChar '-' r
  let r ← takeDigits 2 r
  let r ← expectChar 'T' r
  let r ← takeDigits 2 r
  let r ← expectChar ':' r
  let r ← takeDigits 2 r
  let r ← expectChar ':' r
  let r ← takeDigits 2 r
  let r ← fracOpt r
  expectChar 'Z' r

/-- Embeds the zod string().datetime() format (no UTC offset):
YYYY-MM-DDThh:mm:ss, optional fractional seconds, literal Z. -/
def isDatetime (s : List Char) : Bool :=
  match datetimeScan s with
  | some r => r.isEmpty
  | none => false

/-- JavaScript property access on a JSON value: none for a missing key
or a non-object (matching the isRecord guards, since arrays are a
separate constructor here). -/
def jGet : JVal → List Char → Option JVal
  | .obj fs, k => (fs.find? (fun f => f.1 == k)).map (fun f => f.2)
  | _, _ => none

/-- Strips an explicit null, so that jNN a = none means a ?? b takes
b. -/
def jNN (v : Option JVal) : Option JVal :=
  match v with
  | some .null => none
  | x => x

/-- Embeds the nullish coalescing a ?? b. -/
def jCoalesce (a b : Option JVal) : Option JVal :=
  match jNN a with
  | some v => some v
  | none => b

/-- Embeds isStringArray together with element extraction. -/
def strElems? : List JVal → Option (List (List Char))
  | [] => some []
  | .str s :: rest => (strElems? rest).map (fun t => s :: t)
  | _ => none

/- ---------- schema checks (zod safeParse success) ---------- -/

def checkStrMin1 : Option JVal → Bool
  | some (.str s) => !s.isEmpty
  | _ => false

def checkPosInt : Option JVal → Bool
  | some (.num q) => q.den == 1 && decide (0 < q)
  | _ => false

def checkOptStr : Option JVal → Bool
  | none => true
  | some (.str _) => true
  | _ => false

def checkOptPosInt : Option JVal → Bool
  | none => true
  | v => checkPosInt v

def checkOptDatetime : Option JVal → Bool
  | none => true
  | some (.str s) => isDatetime s
  | _ => false

/-- Embeds the tags field z.array(z.string()).default([]): absent is
fine (defaulted), present must be an array of strings. -/
def checkStrArray : Option JVal → Bool
  | none => true
  | some (.arr xs) => xs.all (fun x => match x with | .str _ => true | _ => false)
  | _ => false

/-- Embeds NullableUrlLike for coverUrl. -/
def checkCoverUrl : Option JVal → Bool
  | none => true
  | some .null => true
  | some (.str s) => checkUrlLike s
  | _ => false

/-- Embeds PdfItemSchema (types/pdf.ts lines 27-35). -/
def checkItem (v : JVal) : Bool :=
  match v with
  | .obj _ =>
      checkStrMin1 (jGet v "id".data) && checkStrMin1 (jGet v "title".data) &&
      checkPosInt (jGet v "pages".data) && checkCoverUrl (jGet v "coverUrl".data) &&
      checkOptStr (jGet v "category".data) && checkStrArray (jGet v "tags".data) &&
      (match jGet v "updatedAt".data with
       | some (.str s) => isDatetime s
       | _ => false)
  | _ => false

/-- Embeds ListResponseSchema (types/pdf.ts lines 50-53). -/
def checkListResponse (v : JVal) : Bool :=
  match v with
  | .obj _ =>
      (match jGet v "items".data with
       | some (.arr xs) => xs.all checkItem
       | _ => false) &&
      checkOptStr (jGet v "nextCursor".data)
  | _ => false

/-- Embeds the pageUrls field z.array(UrlLike).nullable().optional(). -/
def checkPageUrlsField : Option JVal → Bool
  | none => true
  | some .null => true
  | some (.arr xs) => xs.all (fun x => match x with
      | .str s => checkUrlLike s
      | _ => false)
  | _ => false

/-- Embeds PdfDetailSchema (types/pdf.ts lines 41-48). -/
def checkDetail (v : JVal) : Bool :=
  match v with
  | .obj _ =>
      checkStrMin1 (jGet v "id".data) && checkStrMin1 (jGet v "title".data) &&
      checkPosInt (jGet v "pages".data) && checkOptStr (jGet v "category".data) &&
      checkStrArray (jGet v "tags".data) &&
      checkPageUrlsField (jGet v "pageUrls".data)
  | _ => false

/-- Embeds SearchHitSchema (types/pdf.ts lines 18-21). -/
def checkSearchHit (v : JVal) : Bool :=
  match v with
  | .obj _ =>
      checkPosInt (jGet v "page".data) && checkOptStr (jGet v "snippet".data)
  | _ => false

/-- Embeds SearchResponseSchema (types/pdf.ts lines 74-76). -/
def checkSearchResponse (v : JVal) : Bool :=
  match v with
  | .obj _ =>
      (match jGet v "hits".data with
       | some (.arr xs) => xs.all checkSearchHit
       | _ => false)
  | _ => false

/-- Embeds PageUrlSchema (types/pdf.ts lines 61-72); its unknown-key
behaviour is not exercised by any claim and declared keys alone are
checked. -/
def checkPageUrl (v : JVal) : Bool :=
  match v with
  | .obj _ =>
      (match jGet v "url".data with
       | some (.str s) => checkUrlLike s
       | _ => false) &&
      checkOptDatetime (jGet v "expiresAt".data) &&
      checkOptStr (jGet v "contentType".data) &&
      checkOptPosInt (jGet v "width".data) &&
      checkOptPosInt (jGet v "height".data) &&
      checkOptStr (jGet v "etag".data) &&
      checkOptStr (jGet v "cacheControl".data)
  | _ => false

/- ---------- normalizers (pdfApi.ts lines 85-186) ---------- -/

def natToChars (n : Nat) : List Char := (toString n).data

/-- Stands for JavaScript String() on a number; only non-emptiness
matters to the schemas. -/
def ratToChars (q : ℚ) : List Char := (toString q).data

/-- Embeds coerceId (pdfApi.ts lines 85-89). -/
def coerceId (idRaw : Option JVal) (index : Nat) : List Char :=
  match idRaw with
  | some (.str s) => if !s.isEmpty then s else "tmp-".data ++ natToChars index
  | some (.num q) => ratToChars q
  | some (.bool b) => if b then "true".data else "false".data
  | _ => "tmp-".data ++ natToChars index

def pickName (raw : JVal) : List Char :=
  match jGet raw "name".data with
  | some (.str s) => if !s.isEmpty then s else "Untitled".data
  | _ => "Untitled".data

/-- Embeds the title fallback chain title, then name, then Untitled. -/
def pickTitle (raw : JVal) : List Char :=
  match jGet raw "title".data with
  | some (.str s) => if !s.isEmpty then s else pickName raw
  | _ => pickName raw

/-- Embeds the pages fallback pages ?? pageCount, kept when a positive
number (JSON numbers are always finite) and defaulted to 1. -/
def pickPages (raw : JVal) : ℚ :=
  match jCoalesce (jGet raw "pages".data) (jGet raw "pageCount".data) with
  | some (.num q) => if 0 < q then q else 1
  | _ => 1

/-- Normalized item produced by normalizeItemLike. -/
structure NormItem where
  id : List Char
  title : List Char
  pages : ℚ
  coverUrl : Option (List Char)
  category : Option (List Char)
  tags : List (List Char)
  updatedAt : List Char

/-- Embeds normalizeItemLike (pdfApi.ts lines 92-134); nowIso stands
for new Date().toISOString(). -/
def normalizeItemLike (nowIso : List Char) (raw : JVal) (index : Nat) : NormItem :=
  { id := coerceId (jCoalesce (jGet raw "id".data) (jGet raw "_id".data)) index
  , title := pickTitle raw
  , pages := pickPages raw
  , coverUrl :=
      match jGet raw "coverUrl".data with
      | some (.str s) => some s
      | _ =>
        match jGet raw "thumbnailUrl".data with
        | some (.str s) => some s
        | _ => none
  , category :=
      match jGet raw "category".data with
      | some (.str s) => if !s.isEmpty then some s else none
      | _ => none
  , tags :=
      match jGet raw "tags".data with
      | some (.arr xs) => (strElems? xs).getD []
      | _ => []
  , updatedAt :=
      match jGet raw "updatedAt".data with
      | some (.str s) => if !s.isEmpty then s else nowIso
      | _ => nowIso }

/-- Object literal built from a normalized item: category only when
present and tags only when non-empty, as in the spreads of
normalizeItemLike's return (the later coercion emits the same fields
in a different key order, which property lookup cannot observe). -/
def NormItem.toJVal (n : NormItem) : JVal :=
  .obj ([("id".data, JVal.str n.id), ("title".data, JVal.str n.title),
         ("pages".data, JVal.num n.pages),
         ("coverUrl".data, match n.coverUrl with
           | some s => JVal.str s
           | none => JVal.null)]
    ++ (match n.category with
        | some c => [("category".data, JVal.str c)]
        | none => [])
    ++ (if n.tags.isEmpty then []
        else [("tags".data, JVal.arr (n.tags.map JVal.str))])
    ++ [("updatedAt".data, JVal.str n.updatedAt)])

/-- Embeds normalizeListResponse (pdfApi.ts lines 137-149). -/
def normalizeListResponse (nowIso : List Char) (raw : JVal) : JVal :=
  let itemsIn :=
    match jGet raw "items".data with
    | some (.arr xs) => xs
    | _ => []
  let items := itemsIn.enum.map (fun p => (normalizeItemLike nowIso p.2 p.1).toJVal)
  .obj (("items".data, JVal.arr items)
    :: (match jGet raw "nextCursor".data with
        | some (.str s) => if !s.isEmpty then [("nextCursor".data, JVal.str s)] else []
        | _ => []))

/-- Embeds the final tolerant coercion of listPdfs (pdfApi.ts lines
241-263), re-normalizing each item and forcing non-empty id and title
and positive pages. -/
def coerceItem (nowIso : List Char) (raw : JVal) (index : Nat) : NormItem :=
  let n := normalizeItemLike nowIso raw index
  { id := if !n.id.isEmpty then n.id else "tmp-".data ++ natToChars index
  , title := if !n.title.isEmpty then n.title else "Untitled".data
  , pages := if 0 < n.pages then n.pages else 1
  , coverUrl := n.coverUrl
  , category :=
      match n.category with
      | some c => if !c.isEmpty then some c else none
      | none => none
  , tags := n.tags
  , updatedAt := n.updatedAt }

def coerceListResponse (nowIso : List Char) (raw : JVal) : JVal :=
  let itemsIn :=
    match jGet raw "items".data with
    | some (.arr xs) => xs
    | _ => []
  let items := itemsIn.enum.map (fun p => (coerceItem nowIso p.2 p.1).toJVal)
  .obj (("items".data, JVal.arr items)
    :: (match jGet raw "nextCursor".data with
        | some (.str s) => if !s.isEmpty then [("nextCursor".data, JVal.str s)] else []
        | _ => []))

/-- Embeds normalizeDetail (pdfApi.ts lines 152-186). -/
def normalizeDetail (raw : JVal) : JVal :=
  .obj ([("id".data,
          JVal.str (coerceId (jCoalesce (jGet raw "id".data) (jGet raw "_id".data)) 0)),
         ("title".data, JVal.str (pickTitle raw)),
         ("pages".data, JVal.num (pickPages raw)),
         ("pageUrls".data,
          match jGet raw "pageUrls".data with
          | some (.arr xs) =>
            match strElems? xs with
            | some ss => JVal.arr (ss.map JVal.str)
            | none => JVal.null
          | _ => JVal.null)]
    ++ (match jGet raw "category".data with
        | some (.str s) => if !s.isEmpty then [("category".data, JVal.str s)] else []
        | _ => [])
    ++ (match jGet raw "tags".data with
        | some (.arr xs) =>
          match strElems? xs with
          | some ss =>
            if ss.isEmpty then [] else [("tags".data, JVal.arr (ss.map JVal.str))]
          | none => []
        | _ => []))

/- ---------- endpoint validation pipelines ---------- -/

/-- Embeds parseOrThrow (pdfApi.ts lines 65-79): success passes the
value through, failure raises the uniform APIError with status 200 and
the zod diagnostics attached (recorded here as the value that failed
validation). -/
def parseOrThrowB (check : JVal → Bool) (v : JVal) (path : List Char) :
    Except APIErrM JVal :=
  if check v then Except.ok v
  else Except.error ⟨"Invalid API response shape".data, 200, path, some v⟩

/-- Embeds the response handling of listPdfs (pdfApi.ts lines 233-266):
strict parse, then normalize and re-validate, then the maximally
defensive coercion, whose parseOrThrow raises if even that fails. -/
def listPdfsHandle (nowIso path : List Char) (raw : JVal) : Except APIErrM JVal :=
  if checkListResponse raw then Except.ok raw
  else
    if checkListResponse (normalizeListResponse nowIso raw) then
      Except.ok (normalizeListResponse nowIso raw)
    else parseOrThrowB checkListResponse (coerceListResponse nowIso raw) path

/-- Embeds the response handling of getPdfDetail (pdfApi.ts lines
275-283): strict parse, then normalizeDetail and re-validate. -/
def getPdfDetailHandle (path : List Char) (raw : JVal) : Except APIErrM JVal :=
  if checkDetail raw then Except.ok raw
  else parseOrThrowB checkDetail (normalizeDetail raw) path

/-- Embeds the response handling of searchPdf (pdfApi.ts line 344): a
single parseOrThrow with no normalization pass. -/
def searchPdfHandle (path : List Char) (raw : JVal) : Except APIErrM JVal :=
  parseOrThrowB checkSearchResponse raw path

/-- Embeds the response handling of getPageUrl (pdfApi.ts line 334): a
single parseOrThrow with no normalization pass. -/
def pageUrlHandle (path : List Char) (raw : JVal) : Except APIErrM JVal :=
  parseOrThrowB checkPageUrl raw path

/-- Modelled from the spec: the claimed behaviour of the search
endpoint, which on validation failure is said to attempt a best-effort
normalization and, as a last resort, a maximally defensive coercion
that never throws for shape issues alone. The coercion keeps the
schema-valid hits of a hits array and produces an empty hits list
otherwise, in the style of the list endpoint's coercion. The source
searchPdf has no such pass, which the counterexample exhibits. -/
def searchPdfSpecModel (path : List Char) (raw : JVal) : Except APIErrM JVal :=
  if checkSearchResponse raw then Except.ok raw
  else
    Except.ok (.obj [("hits".data,
      JVal.arr (match jGet raw "hits".data with
        | some (.arr xs) => xs.filter checkSearchHit
        | _ => []))])

end AspectNova

namespace AspectNova

/- ===================== Theorems ===================== -/

/-- Helper: the head of a dropWhile result never satisfies the dropped
predicate. -/
theorem dropWhile_head_not (p : Char → Bool) (l : List Char) (c : Char)
    (h : (List.dropWhile p l).head? = some c) : p c = false := by
  induction l with
  | nil => simp [List.dropWhile] at h
  | cons a t ih =>
    rw [List.dropWhile_cons] at h
    by_cases hpa : p a = true
    · rw [if_pos hpa] at h; exact ih h
    · rw [if_neg hpa] at h
      simp only [List.head?_cons, Option.some.injEq] at h
      subst h
      simpa using hpa

/-- Helper: stripTrailingSlashes never ends in a slash. -/
theorem stripTrailingSlashes_getLast (s : List Char) :
    (stripTrailingSlashes s).getLast? ≠ some '/' := by
  unfold stripTrailingSlashes
  rw [List.getLast?_reverse]
  intro h
  have := dropWhile_head_not (fun c => c = '/') s.reverse '/' h
  simp at this

/-- Helper: stripLeadingSlashes never starts with a slash. -/
theorem stripLeadingSlashes_head (s : List Char) :
    (stripLeadingSlashes s).head? ≠ some '/' := by
  intro h
  have := dropWhile_head_not (fun c => c = '/') s '/' h
  simp at this

/-- C6: an input matching the absolute-URI pattern is used verbatim and
the base URL is never prepended; any other input yields the base with
trailing slashes removed, one '/' and the input with leading slashes
removed, and since the stripped base never ends in '/' and the stripped
path never starts with '/', exactly one slash separates them. -/
theorem toURL_join (baseUrl input : List Char) :
    (isAbsoluteUrl input = true → toURL baseUrl input = input) ∧
    (isAbsoluteUrl input = false →
      toURL baseUrl input =
        stripTrailingSlashes baseUrl ++ '/' :: stripLeadingSlashes input ∧
      (stripTrailingSlashes baseUrl).getLast? ≠ some '/' ∧
      (stripLeadingSlashes input).head? ≠ some '/') := by
  constructor
  · intro h; simp [toURL, h]
  · intro h
    refine ⟨by simp [toURL, h], stripTrailingSlashes_getLast baseUrl,
      stripLeadingSlashes_head input⟩

/-- Witness for C6 at concrete inputs: an absolute mock:// URL passes
through untouched, and a slashed base joins a slashed path with exactly
one separating slash. -/
theorem toURL_join_witness :
    toURL "https://api.example.com".data "mock://pdfs/1".data = "mock://pdfs/1".data ∧
    toURL "https://api.example.com///".data "///pdfs".data =
      "https://api.example.com".data ++ '/' :: "pdfs".data := by
  constructor
  · exact (toURL_join "https://api.example.com".data "mock://pdfs/1".data).1 (by decide)
  · have h := (toURL_join "https://api.example.com///".data "///pdfs".data).2 (by decide)
    rw [h.1]
    decide

/-- C8 counterexample. The claim asserts read-your-write under every
platform configuration and that read failures yield null. Both parts
fail on the code: on native with SecureStore present but a throwing
write, setItemAsync swallows the failure (secure-store.ts line 178) and
a subsequent get returns null, not the written value; on web with
session persistence and a blocked sessionStorage, a failing read
returns the in-memory fallback (secure-store.ts line 132), here the
just-written token, not null. -/
theorem tokenStore_counterexample :
    getItemAsync (StoreCfg.native true false true)
      (setItemAsync (StoreCfg.native true false true)
        ⟨none, none, none⟩ (some "x".data)) = none ∧
    getItemAsync (StoreCfg.webSession true)
      (setItemAsync (StoreCfg.webSession true)
        ⟨none, none, none⟩ (some "x".data)) = some "x".data := by
  exact ⟨rfl, rfl⟩

/-- C8 as amended: get after set(x) returns x in every configuration
provided the underlying write did not silently fail (for native:
SecureStore available and the write not throwing; web writes always
land at least in memory); read failures never propagate an exception
and yield null on native (whether the store is unavailable or the read
throws), while web session persistence falls back to the in-memory
token on a failing read. -/
theorem tokenStore_read_your_write :
    (∀ (st : StoreState) (x : List Char),
       getItemAsync .webMemory (setItemAsync .webMemory st (some x)) = some x) ∧
    (∀ (st : StoreState) (x : List Char) (blocked : Bool),
       getItemAsync (.webSession blocked)
         (setItemAsync (.webSession blocked) st (some x)) = some x) ∧
    (∀ (st : StoreState) (x : List Char),
       getItemAsync (.native true false false)
         (setItemAsync (.native true false false) st (some x)) = some x) ∧
    (∀ (st : StoreState) (av wt : Bool),
       getItemAsync (.native av true wt) st = none) ∧
    (∀ (st : StoreState) (rt wt : Bool),
       getItemAsync (.native false rt wt) st = none) ∧
    (∀ (st : StoreState),
       getItemAsync (.webSession true) st = st.inMemoryToken) := by
  refine ⟨fun st x => rfl, fun st x blocked => ?_, fun st x => rfl,
    fun st av wt => ?_, fun st rt wt => rfl, fun st => rfl⟩
  · cases blocked <;> rfl
  · cases av <;> rfl

/-- Helper: folding call events over a state whose refresh promise is
outstanding only registers awaits on that same promise; nothing else
changes. -/
theorem foldl_calls_inflight (p : Nat) (cs : List Nat) :
    ∀ s : CoordState, s.refreshPromise = some p →
      (cs.map RefreshEvent.call).foldl coordStep s =
        { s with awaits := (cs.map (fun c => (c, p))).reverse ++ s.awaits } := by
  induction cs with
  | nil => intro s h; rfl
  | cons a t ih =>
    intro s h
    have hstep : coordStep s (RefreshEvent.call a) =
        { s with awaits := (a, p) :: s.awaits } := by
      simp [coordStep, refreshCall, h]
    calc ((a :: t).map RefreshEvent.call).foldl coordStep s
        = (t.map RefreshEvent.call).foldl coordStep
            { s with awaits := (a, p) :: s.awaits } := by
          simp [List.foldl, hstep]
      _ = { s with awaits := ((a :: t).map (fun c => (c, p))).reverse ++ s.awaits } := by
          rw [ih { s with awaits := (a, p) :: s.awaits } h]
          simp

/-- C1: single-flight refresh. In the scenario where one caller starts
a refresh, any number of further callers arrive while it is in flight,
and the refresh then settles with result r: exactly one /auth/refresh
request is issued, the promise slot ends cleared, every registered
await observes the same result r, and one further call after
settlement issues exactly one new request. Moreover, in any state, a
call while a promise is outstanding returns that same promise and
issues no request; settling always clears the slot; and a call in the
idle state issues exactly one request. -/
theorem refresh_single_flight (first : Nat) (callers : List Nat)
    (r : Option (List Char)) (d : Nat) :
    ((runCoord (refreshTrace first callers r)).httpRefreshCount = 1 ∧
     (runCoord (refreshTrace first callers r)).refreshPromise = none ∧
     (∀ cp ∈ (runCoord (refreshTrace first callers r)).awaits,
        promiseResult (runCoord (refreshTrace first callers r)) cp.2 = some r) ∧
     (runCoord (refreshTrace first callers r ++ [RefreshEvent.call d])).httpRefreshCount
       = 2) ∧
    (∀ (s : CoordState) (p c : Nat), s.refreshPromise = some p →
       (refreshCall s c).2 = p ∧
       (refreshCall s c).1.httpRefreshCount = s.httpRefreshCount ∧
       (refreshCall s c).1.refreshPromise = some p) ∧
    (∀ (s : CoordState) (res : Option (List Char)),
       (refreshSettle s res).refreshPromise = none ∨ s.refreshPromise = none) ∧
    (∀ (s : CoordState) (c : Nat), s.refreshPromise = none →
       (refreshCall s c).1.httpRefreshCount = s.httpRefreshCount + 1 ∧
       (refreshCall s c).1.refreshPromise = some (refreshCall s c).2) := by
  have hs1 : runCoord [RefreshEvent.call first] =
      { refreshPromise := some 0, nextId := 1, httpRefreshCount := 1,
        storedToken := none, awaits := [(first, 0)], results := [] } := rfl
  have hcalls : (callers.map RefreshEvent.call).foldl coordStep
      { refreshPromise := some 0, nextId := 1, httpRefreshCount := 1,
        storedToken := none, awaits := [(first, 0)], results := [] } =
      { refreshPromise := some 0, nextId := 1, httpRefreshCount := 1,
        storedToken := none,
        awaits := (callers.map (fun c => (c, 0))).reverse ++ [(first, 0)],
        results := [] } := by
    exact foldl_calls_inflight 0 callers _ rfl
  have hrun : runCoord (refreshTrace first callers r) =
      { refreshPromise := none, nextId := 1, httpRefreshCount := 1,
        storedToken := match r with | some t => some t | none => none,
        awaits := (callers.map (fun c => (c, 0))).reverse ++ [(first, 0)],
        results := [(0, r)] } := by
    unfold refreshTrace runCoord
    simp only [List.foldl_cons, List.foldl_append, List.foldl_nil]
    have h0 : coordStep initCoord (RefreshEvent.call first) =
        { refreshPromise := some 0, nextId := 1, httpRefreshCount := 1,
          storedToken := none, awaits := [(first, 0)], results := [] } := rfl
    rw [h0, hcalls]
    rfl
  refine ⟨⟨?_, ?_, ?_, ?_⟩, ?_, ?_, ?_⟩
  · rw [hrun]
  · rw [hrun]
  · rw [hrun]
    intro cp hcp
    have hsnd : cp.2 = 0 := by
      rcases List.mem_append.mp hcp with hl | hr
      · rcases List.mem_reverse.mp hl with hm
        rcases List.mem_map.mp hm with ⟨c, _, hc⟩
        rw [← hc]
      · rcases List.mem_singleton.mp hr with h
        rw [h]
    rw [hsnd]
    rfl
  · have hsplit : runCoord (refreshTrace first callers r ++ [RefreshEvent.call d]) =
        coordStep (runCoord (refreshTrace first callers r)) (RefreshEvent.call d) := by
      unfold runCoord
      simp only [List.foldl_append, List.foldl_cons, List.foldl_nil]
    rw [hsplit, hrun]
    rfl
  · intro s p c h
    simp [refreshCall, h]
  · intro s res
    cases hp : s.refreshPromise with
    | none => exact Or.inr rfl
    | some p => exact Or.inl (by simp [refreshSettle, hp])
  · intro s c h
    simp [refreshCall, h]

/-- Witness for C1: two extra callers join the refresh of caller 1, the
settle delivers a token, one request total; and a call in a concrete
in-flight state returns the outstanding promise 5. -/
theorem refresh_single_flight_witness :
    (runCoord (refreshTrace 1 [2, 3] (some "tok".data))).httpRefreshCount = 1 ∧
    (refreshCall { refreshPromise := some 5, nextId := 6, httpRefreshCount := 1,
                   storedToken := none, awaits := [], results := [] } 9).2 = 5 := by
  refine ⟨(refresh_single_flight 1 [2, 3] (some "tok".data) 4).1.1, ?_⟩
  exact ((refresh_single_flight 0 [] none 0).2.1 _ 5 9 rfl).1

/-- Helper: a 401 is not transient, so the backoff loop never runs on
it, whatever the remaining budget. -/
theorem backoffLoop_401 (env : Nat → Nat) (isGet : Bool) (total : Nat)
    (authH : Option (List Char)) (idx : Nat) :
    ∀ r, backoffLoop env isGet total authH idx 401 r = ([], [], 401) := by
  intro r
  cases r with
  | zero => rfl
  | succ n =>
    simp [backoffLoop, statusOk, isTransient, transientStatuses]

/-- Helper: the backoff loop reuses its entry headers on every attempt,
performs at most its remaining budget of retries, and its j-th wait is
min (1500 * attemptNumber) 4000 where attempt numbering continues from
total - r + 1. -/
theorem backoffLoop_spec (env : Nat → Nat) (isGet : Bool) (total : Nat)
    (authH : Option (List Char)) :
    ∀ r, r ≤ total → ∀ idx status,
      (∀ a ∈ (backoffLoop env isGet total authH idx status r).1,
         a.authHeader = authH) ∧
      (∃ k, k ≤ r ∧
        (backoffLoop env isGet total authH idx status r).2.1 =
          (List.range k).map (fun j => min (1500 * (total - r + j + 1)) 4000)) := by
  intro r
  induction r with
  | zero =>
    intro _ idx status
    exact ⟨fun a ha => by simp [backoffLoop] at ha, 0, Nat.le_refl 0, rfl⟩
  | succ n ih =>
    intro hr idx status
    by_cases hc : (!statusOk status && isGet && isTransient status) = true
    · obtain ⟨ihm, k, hk, hw⟩ := ih (Nat.le_of_succ_le hr) (idx + 1) (env idx)
      constructor
      · intro a ha
        simp only [backoffLoop, if_pos hc, List.mem_cons] at ha
        rcases ha with h1 | h2
        · rw [h1]
        · exact ihm a h2
      · refine ⟨k + 1, Nat.succ_le_succ hk, ?_⟩
        simp only [backoffLoop, if_pos hc]
        rw [hw, List.range_succ_eq_map, List.map_cons, List.map_map]
        have e0 : total - (n + 1) + 0 + 1 = total - (n + 1) + 1 := by omega
        have hfun : ((fun j => min (1500 * (total - (n + 1) + j + 1)) 4000) ∘ Nat.succ)
            = fun j => min (1500 * (total - n + j + 1)) 4000 := by
          funext j
          have hj : total - (n + 1) + Nat.succ j + 1 = total - n + j + 1 := by omega
          simp only [Function.comp]
          rw [hj]
        rw [e0, hfun]
    · constructor
      · intro a ha
        simp only [backoffLoop, if_neg hc] at ha
        simp at ha
      · refine ⟨0, Nat.zero_le _, ?_⟩
        simp only [backoffLoop, if_neg hc]
        rfl

/-- Helper: the last pre-loop attempt carries exactly the headers the
loop will reuse (currentHeaders at loop entry). -/
theorem prePhase_getLast (opts : MergedOpts) (auth0 : Option (List Char))
    (re : RefreshEnv) (env : Nat → Nat) :
    ((prePhase opts auth0 re env).attempts.getLast?).map AttemptRecord.authHeader =
      some (prePhase opts auth0 re env).auth := by
  simp only [prePhase]
  split
  · split <;> rfl
  · rfl

/-- C2: on a first 401 with retryOn401 on, the refresh coordinator is
invoked exactly once; when it yields a token t the same request is
re-issued exactly once with Authorization Bearer t, and if that retry
also returns 401 the loop adds no attempt and the 401 surfaces with no
further refresh; when the refresh yields no token, the single original
attempt's 401 surfaces and the token store is unchanged. -/
theorem apiFetch_401_single_retry (baseUrl input : List Char) (o : ApiFetchOptions)
    (method : Option (List Char)) (storedToken : Option (List Char))
    (re : RefreshEnv) (env : Nat → Nat)
    (h0 : env 0 = 401) (hr : (mergeOpts o).retryOn401 = true) :
    (apiFetchModel baseUrl input o method storedToken re env).refreshCalls = 1 ∧
    (∀ t, refreshOutcome re = some t →
       (apiFetchModel baseUrl input o method storedToken re env).preAttempts =
         [⟨initialAuth (mergeOpts o) storedToken, 401⟩, ⟨some t, env 1⟩] ∧
       (env 1 = 401 →
          (apiFetchModel baseUrl input o method storedToken re env).backoffAttempts
            = [] ∧
          surfacedStatus (apiFetchModel baseUrl input o method storedToken re env)
            = 401)) ∧
    (refreshOutcome re = none →
       (apiFetchModel baseUrl input o method storedToken re env).preAttempts =
         [⟨initialAuth (mergeOpts o) storedToken, 401⟩] ∧
       (apiFetchModel baseUrl input o method storedToken re env).backoffAttempts
         = [] ∧
       surfacedStatus (apiFetchModel baseUrl input o method storedToken re env)
         = 401 ∧
       (apiFetchModel baseUrl input o method storedToken re env).tokenAfter
         = storedToken) := by
  have hcond : env 0 = 401 ∧ (mergeOpts o).retryOn401 = true := ⟨h0, hr⟩
  have hpre : prePhase (mergeOpts o) (initialAuth (mergeOpts o) storedToken) re env
      = (match refreshOutcome re with
         | some t =>
             ⟨[⟨initialAuth (mergeOpts o) storedToken, 401⟩, ⟨some t, env 1⟩],
              some t, 2, env 1, 1⟩
         | none =>
             ⟨[⟨initialAuth (mergeOpts o) storedToken, 401⟩],
              initialAuth (mergeOpts o) storedToken, 1, 401, 1⟩) := by
    unfold prePhase
    rw [if_pos hcond, h0]
  refine ⟨?_, ?_, ?_⟩
  · simp only [apiFetchModel, hpre]
    cases hre : refreshOutcome re <;> rfl
  · intro t ht
    constructor
    · simp only [apiFetchModel, hpre, ht]
    · intro h1
      constructor
      · simp only [apiFetchModel, apiFetchLoop, hpre, ht, h1, backoffLoop_401]
      · simp only [surfacedStatus, apiFetchModel, apiFetchLoop, hpre, ht, h1,
          backoffLoop_401]
        by_cases hb : ((mergeOpts o).throwOnHTTPError && !statusOk 401) = true
        · rw [if_pos hb]
        · rw [if_neg hb]
  · intro ht
    refine ⟨?_, ?_, ?_, ?_⟩
    · simp only [apiFetchModel, hpre, ht]
    · simp only [apiFetchModel, apiFetchLoop, hpre, ht, backoffLoop_401]
    · simp only [surfacedStatus, apiFetchModel, apiFetchLoop, hpre, ht,
        backoffLoop_401]
      by_cases hb : ((mergeOpts o).throwOnHTTPError && !statusOk 401) = true
      · rw [if_pos hb]
      · rw [if_neg hb]
    · simp only [apiFetchModel, tokenAfterFetch]
      rw [if_pos hcond, ht]

/-- Witness for C2 at a concrete run: stored token t1, first status
401, refresh delivers t2, retry succeeds with 200; one refresh call and
the retry carries Bearer t2. -/
theorem apiFetch_401_single_retry_witness :
    (apiFetchModel "mock://b".data "/x".data ⟨none, none, none, none, none⟩ none
       (some "t1".data) ⟨true, some "t2".data⟩
       (fun i => if i = 0 then 401 else 200)).refreshCalls = 1 ∧
    (apiFetchModel "mock://b".data "/x".data ⟨none, none, none, none, none⟩ none
       (some "t1".data) ⟨true, some "t2".data⟩
       (fun i => if i = 0 then 401 else 200)).preAttempts =
      [⟨some "t1".data, 401⟩, ⟨some "t2".data, 200⟩] := by
  have h := apiFetch_401_single_retry "mock://b".data "/x".data
      ⟨none, none, none, none, none⟩ none (some "t1".data)
      ⟨true, some "t2".data⟩ (fun i => if i = 0 then 401 else 200) rfl rfl
  refine ⟨h.1, ?_⟩
  have h2 := (h.2.1 "t2".data rfl).1
  rw [h2]
  rfl

/-- C3: the backoff waits of any apiFetch run form the prefix
min (1500 * 1) 4000, min (1500 * 2) 4000, ... of length at most
idempotentRetries (attempt numbering starting at 1); every backoff
attempt reuses exactly the headers current at loop entry, which are
those of the most recent pre-loop attempt (post-refresh when a refresh
retry happened); and a request whose uppercased method is not GET gets
no backoff attempt and no wait. -/
theorem apiFetch_idempotent_backoff (baseUrl input : List Char) (o : ApiFetchOptions)
    (method : Option (List Char)) (storedToken : Option (List Char))
    (re : RefreshEnv) (env : Nat → Nat) :
    (∃ k, k ≤ (mergeOpts o).idempotentRetries ∧
       (apiFetchModel baseUrl input o method storedToken re env).waits =
         (List.range k).map (fun j => min (1500 * (j + 1)) 4000)) ∧
    (∀ a ∈ (apiFetchModel baseUrl input o method storedToken re env).backoffAttempts,
       a.authHeader = (apiFetchModel baseUrl input o method storedToken re env).loopAuth) ∧
    (((apiFetchModel baseUrl input o method storedToken re env).preAttempts.getLast?).map
        AttemptRecord.authHeader =
      some (apiFetchModel baseUrl input o method storedToken re env).loopAuth) ∧
    (methodUpper method ≠ "GET".data →
       (apiFetchModel baseUrl input o method storedToken re env).backoffAttempts = [] ∧
       (apiFetchModel baseUrl input o method storedToken re env).waits = []) := by
  by_cases hg : isGetMethod method = true
  · have hloop : apiFetchLoop o method storedToken re env =
        backoffLoop env (isGetMethod method) (o.idempotentRetries.getD 2)
          (prePhase (mergeOpts o) (initialAuth (mergeOpts o) storedToken) re env).auth
          (prePhase (mergeOpts o) (initialAuth (mergeOpts o) storedToken) re env).idx
          (prePhase (mergeOpts o) (initialAuth (mergeOpts o) storedToken) re env).status
          (mergeOpts o).idempotentRetries := by
      unfold apiFetchLoop
      rw [if_pos hg]
    have hspec := backoffLoop_spec env (isGetMethod method)
        (o.idempotentRetries.getD 2)
        (prePhase (mergeOpts o) (initialAuth (mergeOpts o) storedToken) re env).auth
        (mergeOpts o).idempotentRetries (le_refl _)
        (prePhase (mergeOpts o) (initialAuth (mergeOpts o) storedToken) re env).idx
        (prePhase (mergeOpts o) (initialAuth (mergeOpts o) storedToken) re env).status
    refine ⟨?_, ?_, ?_, ?_⟩
    · obtain ⟨k, hk, hw⟩ := hspec.2
      refine ⟨k, hk, ?_⟩
      show (apiFetchLoop o method storedToken re env).2.1 = _
      rw [hloop, hw]
      have hfun : (fun j => min (1500 * (o.idempotentRetries.getD 2 -
            (mergeOpts o).idempotentRetries + j + 1)) 4000)
          = fun j => min (1500 * (j + 1)) 4000 := by
        funext j
        have hj : o.idempotentRetries.getD 2 -
            (mergeOpts o).idempotentRetries + j + 1 = j + 1 := by
          show o.idempotentRetries.getD 2 - o.idempotentRetries.getD 2 + j + 1 = j + 1
          omega
        rw [hj]
      rw [hfun]
    · intro a ha
      have ha2 : a ∈ (apiFetchLoop o method storedToken re env).1 := ha
      rw [hloop] at ha2
      exact hspec.1 a ha2
    · exact prePhase_getLast _ _ _ _
    · intro hne
      exact absurd (by simpa [isGetMethod] using hg) hne
  · have hloop : apiFetchLoop o method storedToken re env =
        ([], [], (prePhase (mergeOpts o) (initialAuth (mergeOpts o) storedToken)
                    re env).status) := by
      unfold apiFetchLoop
      rw [if_neg hg]
      rfl
    refine ⟨⟨0, Nat.zero_le _, ?_⟩, ?_, ?_, fun _ => ⟨?_, ?_⟩⟩
    · show (apiFetchLoop o method storedToken re env).2.1 = _
      rw [hloop]
      rfl
    · intro a ha
      have ha2 : a ∈ (apiFetchLoop o method storedToken re env).1 := ha
      rw [hloop] at ha2
      simp at ha2
    · exact prePhase_getLast _ _ _ _
    · show (apiFetchLoop o method storedToken re env).1 = []
      rw [hloop]
    · show (apiFetchLoop o method storedToken re env).2.1 = []
      rw [hloop]

/-- Witness for C3: a POST run receives no backoff waits. -/
theorem apiFetch_idempotent_backoff_witness :
    (apiFetchModel "mock://b".data "/x".data ⟨none, none, none, none, none⟩
       (some "POST".data) none ⟨false, none⟩ (fun _ => 503)).waits = [] := by
  exact ((apiFetch_idempotent_backoff "mock://b".data "/x".data
      ⟨none, none, none, none, none⟩ (some "POST".data) none ⟨false, none⟩
      (fun _ => 503)).2.2.2 (by decide)).2

/-- Helper: setting in range places the value at the index. -/
theorem get_set_some (l : List (Option (List Char))) :
    ∀ i, i < l.length → ∀ v, (l.set i (some v))[i]? = some (some v) := by
  induction l with
  | nil =>
    intro i h
    exact absurd h (Nat.not_lt_zero i)
  | cons a t ih =>
    intro i h v
    cases i with
    | zero => simp
    | succ j =>
      show (a :: t.set j (some v))[j + 1]? = some (some v)
      rw [List.getElem?_cons_succ]
      exact ih j (Nat.lt_of_succ_lt_succ h) v

/-- Helper: JavaScript element assignment leaves the value readable at
the written index whether or not the array had to grow. -/
theorem listSetExtend_get (l : List (Option (List Char))) (i : Nat) (v : List Char) :
    (listSetExtend l i v)[i]? = some (some v) := by
  unfold listSetExtend
  by_cases h : i < l.length
  · rw [if_pos h]
    exact get_set_some l i h v
  · rw [if_neg h]
    have hlen : l.length ≤ i := Nat.le_of_not_lt h
    rw [List.append_assoc, List.getElem?_append_right hlen]
    have hlen2 : (List.replicate (i - l.length)
        (none : Option (List Char))).length ≤ i - l.length := by
      rw [List.length_replicate]
    rw [List.getElem?_append_right hlen2, List.length_replicate, Nat.sub_self]
    rfl

/-- Helper: a cache update is immediately readable. -/
theorem cacheLookup_cacheSet (c : List (Nat × PageCacheEntry)) (p : Nat)
    (e : PageCacheEntry) : cacheLookup (cacheSet c p e) p = some e := by
  simp [cacheLookup, cacheSet]

/-- Helper: when the cache entry for the clamped page is stale, or
there is no entry and no usable static URL, resolvePageUrl proceeds to
the network fetch path. -/
theorem resolvePageUrl_fetch_branch (parse : List Char → Option Int) (now : Int)
    (st : ReaderStateM) (n : Int) (resp : PageUrlRespM) (stA : ReaderStateM)
    (cur : PdfDetailM) (hcur : st.current = some cur)
    (hdisj : (∃ e, cacheLookup st.pageCache (clampPage n cur.pages) = some e ∧
                isExpired parse now e.expiresAt 20 = true) ∨
             (cacheLookup st.pageCache (clampPage n cur.pages) = none ∧
                staticAt cur (clampPage n cur.pages) = none)) :
    resolvePageUrl parse now st n resp stA =
      resolveFetchPath (clampPage n cur.pages) cur.id resp stA := by
  rcases hdisj with ⟨e, he, hexp⟩ | ⟨hnone, hstat⟩
  · simp only [resolvePageUrl, hcur, he, hexp, Bool.not_true]
    rfl
  · simp only [resolvePageUrl, hcur, hnone]
    unfold staticAt at hstat
    cases hpu : cur.pageUrls with
    | none => rfl
    | some l =>
      rw [hpu] at hstat
      dsimp only at hstat ⊢
      cases hg : l[(clampPage n cur.pages - 1)]? with
      | none => rfl
      | some o =>
        rw [hg] at hstat
        cases o with
        | none => rfl
        | some s0 =>
          dsimp only at hstat ⊢
          by_cases hlen : s0.length > 0
          · rw [if_pos hlen] at hstat
            exact absurd hstat (by simp)
          · rw [if_neg hlen]

/-- C4 counterexample. The claim says a stale cache entry falls back to
the document's static page-URL list before any network call; the code
only consults the static list when no cache entry exists at all (the
!cached guard of the reader store line 295), so a stale entry with an
available static URL goes straight to the network. Here page 1 has a
stale cached entry and static URL mock://static1, yet the run performs
the network fetch and returns the fetched URL. -/
theorem resolvePageUrl_stale_static_counterexample :
    resolvePageUrl (fun s => if s = "EXP".data then some 0 else none) 1000000
      ⟨some ⟨"d1".data, 3, some [some "mock://static1".data, none, none]⟩,
       [(1, ⟨"mock://old".data, some "EXP".data⟩)]⟩ 1
      ⟨"mock://fresh".data, some "E2".data⟩
      ⟨some ⟨"d1".data, 3, some [some "mock://static1".data, none, none]⟩,
       [(1, ⟨"mock://old".data, some "EXP".data⟩)]⟩ =
      ResolveOutcome.ok "mock://fresh".data
        ⟨some ⟨"d1".data, 3, some [some "mock://fresh".data, none, none]⟩,
         [(1, ⟨"mock://fresh".data, some "E2".data⟩),
          (1, ⟨"mock://old".data, some "EXP".data⟩)]⟩ true ∧
    "mock://fresh".data ≠ "mock://static1".data := by
  exact ⟨by decide, by decide⟩

/-- C4 as amended: the requested page is clamped into [1, totalPages];
a fresh cache entry is returned with no network call; when no cache
entry exists at all (the code skips this step for a stale entry) a
non-empty static list entry is adopted into the cache as non-expiring
and returned with no network call; otherwise the endpoint is called
and, if the document is unchanged, the url and expiresAt are stored in
the cache, the static list is backfilled at the resolved index and the
fetched URL is returned. -/
theorem resolvePageUrl_algorithm (parse : List Char → Option Int) (now : Int)
    (st : ReaderStateM) (n : Int) (resp : PageUrlRespM) (stA : ReaderStateM)
    (cur : PdfDetailM) (hcur : st.current = some cur) (hpg : 1 ≤ cur.pages) :
    (1 ≤ clampPage n cur.pages ∧ clampPage n cur.pages ≤ cur.pages) ∧
    (∀ e, cacheLookup st.pageCache (clampPage n cur.pages) = some e →
       isExpired parse now e.expiresAt 20 = false →
       resolvePageUrl parse now st n resp stA = .ok e.url st false) ∧
    (∀ s, cacheLookup st.pageCache (clampPage n cur.pages) = none →
       staticAt cur (clampPage n cur.pages) = some s →
       resolvePageUrl parse now st n resp stA =
         .ok s
           { st with
             pageCache := cacheSet st.pageCache (clampPage n cur.pages) ⟨s, none⟩ }
           false) ∧
    (((∃ e, cacheLookup st.pageCache (clampPage n cur.pages) = some e ∧
         isExpired parse now e.expiresAt 20 = true) ∨
      (cacheLookup st.pageCache (clampPage n cur.pages) = none ∧
         staticAt cur (clampPage n cur.pages) = none)) →
     ∀ cur2, stA.current = some cur2 → cur2.id = cur.id →
       ∃ st' l', resolvePageUrl parse now st n resp stA = .ok resp.url st' true ∧
         cacheLookup st'.pageCache (clampPage n cur.pages) =
           some ⟨resp.url, resp.expiresAt⟩ ∧
         st'.current = some { cur2 with pageUrls := some l' } ∧
         l'[(clampPage n cur.pages - 1)]? = some (some resp.url)) := by
  refine ⟨⟨?_, ?_⟩, ?_, ?_, ?_⟩
  · unfold clampPage; omega
  · unfold clampPage; omega
  · intro e he hexp
    simp only [resolvePageUrl, hcur, he, hexp, Bool.not_false, if_true]
  · intro s hnone hstat
    unfold staticAt at hstat
    cases hpu : cur.pageUrls with
    | none => rw [hpu] at hstat; exact absurd hstat (by simp)
    | some l =>
      rw [hpu] at hstat
      dsimp only at hstat
      cases hg : l[(clampPage n cur.pages - 1)]? with
      | none => rw [hg] at hstat; exact absurd hstat (by simp)
      | some o =>
        rw [hg] at hstat
        cases o with
        | none => exact absurd hstat (by simp)
        | some s0 =>
          dsimp only at hstat
          by_cases hlen : s0.length > 0
          · rw [if_pos hlen] at hstat
            have hs : s0 = s := Option.some.inj hstat
            subst hs
            simp only [resolvePageUrl, hcur, hnone, hpu, hg, if_pos hlen]
          · rw [if_neg hlen] at hstat
            exact absurd hstat (by simp)
  · intro hdisj cur2 hA hid
    rw [resolvePageUrl_fetch_branch parse now st n resp stA cur hcur hdisj]
    have hne : ¬ (stA.current.map PdfDetailM.id ≠ some cur.id) := by
      rw [hA]
      simp [hid]
    unfold resolveFetchPath
    rw [if_neg hne, hA]
    dsimp only
    rw [if_pos hid]
    refine ⟨_, _, rfl, cacheLookup_cacheSet _ _ _, rfl, ?_⟩
    cases hpu : cur2.pageUrls with
    | none =>
      dsimp only
      exact listSetExtend_get _ _ _
    | some l =>
      dsimp only
      exact listSetExtend_get _ _ _

/-- Witness for C4: a fresh cached entry for page 2 of a five-page
document is returned as-is with no network call. -/
theorem resolvePageUrl_algorithm_witness :
    resolvePageUrl (fun _ => none) 0
      ⟨some ⟨"w4".data, 5, none⟩, [(2, ⟨"mock://u".data, none⟩)]⟩ 2
      ⟨"mock://r".data, none⟩ ⟨some ⟨"w4".data, 5, none⟩, [(2, ⟨"mock://u".data, none⟩)]⟩
      = ResolveOutcome.ok "mock://u".data
          ⟨some ⟨"w4".data, 5, none⟩, [(2, ⟨"mock://u".data, none⟩)]⟩ false := by
  exact (resolvePageUrl_algorithm (fun _ => none) 0
      ⟨some ⟨"w4".data, 5, none⟩, [(2, ⟨"mock://u".data, none⟩)]⟩ 2
      ⟨"mock://r".data, none⟩ ⟨some ⟨"w4".data, 5, none⟩, [(2, ⟨"mock://u".data, none⟩)]⟩
      ⟨"w4".data, 5, none⟩ rfl (by decide)).2.1 ⟨"mock://u".data, none⟩
      (by decide) (by decide)

/-- C5: when the fetch path is taken and the document observed after
the await differs from the one captured at entry (or none is open any
more), resolvePageUrl throws Document changed and returns the observed
state untouched: no cache entry and no static-list backfill happen. -/
theorem resolvePageUrl_doc_changed (parse : List Char → Option Int) (now : Int)
    (st : ReaderStateM) (n : Int) (resp : PageUrlRespM) (stA : ReaderStateM)
    (cur : PdfDetailM) (hcur : st.current = some cur)
    (hdisj : (∃ e, cacheLookup st.pageCache (clampPage n cur.pages) = some e ∧
                isExpired parse now e.expiresAt 20 = true) ∨
             (cacheLookup st.pageCache (clampPage n cur.pages) = none ∧
                staticAt cur (clampPage n cur.pages) = none))
    (hchanged : stA.current.map PdfDetailM.id ≠ some cur.id) :
    resolvePageUrl parse now st n resp stA =
      .err "Document changed".data stA := by
  rw [resolvePageUrl_fetch_branch parse now st n resp stA cur hcur hdisj]
  unfold resolveFetchPath
  rw [if_pos hchanged]

/-- Witness for C5: the open document switches from a to b while the
page-url fetch is outstanding; the result is discarded with the
Document changed error and the b state is left untouched. -/
theorem resolvePageUrl_doc_changed_witness :
    resolvePageUrl (fun _ => none) 0 ⟨some ⟨"a".data, 2, none⟩, []⟩ 1
      ⟨"mock://r".data, none⟩ ⟨some ⟨"b".data, 7, none⟩, []⟩ =
      ResolveOutcome.err "Document changed".data
        ⟨some ⟨"b".data, 7, none⟩, []⟩ := by
  exact resolvePageUrl_doc_changed (fun _ => none) 0
      ⟨some ⟨"a".data, 2, none⟩, []⟩ 1 ⟨"mock://r".data, none⟩
      ⟨some ⟨"b".data, 7, none⟩, []⟩ ⟨"a".data, 2, none⟩ rfl
      (Or.inr ⟨by decide, by decide⟩) (by decide)

/-- C10: a present but unparseable expiresAt (Date.parse NaN, the parse
oracle returning none) makes isExpired false for every clock value, so
a cache entry carrying it is served indefinitely with no network
call. -/
theorem isExpired_malformed_timestamp (parse : List Char → Option Int) (now : Int)
    (s u : List Char) (st : ReaderStateM) (n : Int) (resp : PageUrlRespM)
    (stA : ReaderStateM) (cur : PdfDetailM)
    (hparse : parse s = none) (hcur : st.current = some cur)
    (hcache : cacheLookup st.pageCache (clampPage n cur.pages) = some ⟨u, some s⟩) :
    isExpired parse now (some s) 20 = false ∧
    resolvePageUrl parse now st n resp stA = .ok u st false := by
  have hexp : isExpired parse now (some s) 20 = false := by
    simp only [isExpired, hparse]
  refine ⟨hexp, ?_⟩
  simp only [resolvePageUrl, hcur, hcache, hexp, Bool.not_false, if_true]

/-- Witness for C10: an entry whose expiry string never parses is
returned from cache at an arbitrarily late clock value. -/
theorem isExpired_malformed_timestamp_witness :
    isExpired (fun _ => none) 999999999 (some "not-a-date".data) 20 = false ∧
    resolvePageUrl (fun _ => none) 999999999
      ⟨some ⟨"w10".data, 4, none⟩, [(1, ⟨"mock://keep".data, some "not-a-date".data⟩)]⟩ 1
      ⟨"mock://r".data, none⟩
      ⟨some ⟨"w10".data, 4, none⟩, [(1, ⟨"mock://keep".data, some "not-a-date".data⟩)]⟩
      = ResolveOutcome.ok "mock://keep".data
          ⟨some ⟨"w10".data, 4, none⟩,
           [(1, ⟨"mock://keep".data, some "not-a-date".data⟩)]⟩ false := by
  exact isExpired_malformed_timestamp (fun _ => none) 999999999 "not-a-date".data
      "mock://keep".data
      ⟨some ⟨"w10".data, 4, none⟩, [(1, ⟨"mock://keep".data, some "not-a-date".data⟩)]⟩ 1
      ⟨"mock://r".data, none⟩
      ⟨some ⟨"w10".data, 4, none⟩, [(1, ⟨"mock://keep".data, some "not-a-date".data⟩)]⟩
      ⟨"w10".data, 4, none⟩ rfl rfl (by decide)

/-- C9: a non-finite or below-1 page makes getPageUrl reject locally
with a status-400 APIError; the error branch of the model carries no
request descriptor, so no network request is issued and no state is
touched for such inputs. -/
theorem getPageUrl_local_400 (id : List Char) (page : JsNum)
    (hints : Option PageUrlHints)
    (hbad : JsNum.isFiniteB page = false ∨ JsNum.ltOne page = true) :
    getPageUrlM id page hints =
      Except.error
        ⟨"Page must be an integer >= 1".data, 400, pageGuardUrl id page, none⟩ := by
  have hcond : (!JsNum.isFiniteB page || JsNum.ltOne page) = true := by
    rcases hbad with h | h <;> simp [h]
  unfold getPageUrlM
  rw [if_pos hcond]

/-- Witness for C9 matching the spec's example: page 0 rejects locally
with status 400. -/
theorem getPageUrl_local_400_witness :
    getPageUrlM "doc1".data (JsNum.finite 0) none =
      Except.error
        ⟨"Page must be an integer >= 1".data, 400,
         pageGuardUrl "doc1".data (JsNum.finite 0), none⟩ := by
  exact getPageUrl_local_400 "doc1".data (JsNum.finite 0) none (Or.inr (by decide))

/-- C7 counterexample. The claim says every endpoint of the resource
layer, search included, attempts the best-effort normalization pass and
re-validates before raising an API Error. The source searchPdf
(pdfApi.ts line 344) validates once and raises immediately: on the
response with hits 42, the code raises the shape APIError while the
spec-modelled normalize-then-coerce pipeline returns hits []. The
page-url endpoint (line 334) raises immediately in the same way. -/
theorem search_no_normalization_counterexample :
    searchPdfHandle "/pdfs/doc1/search".data (JVal.obj [("hits".data, JVal.num 42)]) =
      Except.error ⟨"Invalid API response shape".data, 200, "/pdfs/doc1/search".data,
        some (JVal.obj [("hits".data, JVal.num 42)])⟩ ∧
    searchPdfSpecModel "/pdfs/doc1/search".data (JVal.obj [("hits".data, JVal.num 42)]) =
      Except.ok (JVal.obj [("hits".data, JVal.arr [])]) := by
  exact ⟨rfl, rfl⟩

/-- C7 as amended: the list endpoint tries strict validation, then the
normalization pass and re-validation, then the defensive coercion, and
raises only when all three fail, with status-200 diagnostics attached;
the detail endpoint tries strict validation then normalizeDetail; the
search and page-url endpoints raise immediately on validation failure,
with diagnostics attached, performing no normalization pass; no
endpoint ever returns a value that fails its schema, and no validation
failure is silently dropped. -/
theorem validation_pipeline (nowIso path : List Char) (raw : JVal) :
    ((∀ v, listPdfsHandle nowIso path raw = Except.ok v →
        checkListResponse v = true) ∧
     (checkListResponse raw = false →
        checkListResponse (normalizeListResponse nowIso raw) = true →
        listPdfsHandle nowIso path raw =
          Except.ok (normalizeListResponse nowIso raw)) ∧
     (∀ e, listPdfsHandle nowIso path raw = Except.error e →
        checkListResponse raw = false ∧
        checkListResponse (normalizeListResponse nowIso raw) = false ∧
        checkListResponse (coerceListResponse nowIso raw) = false ∧
        e.status = 200 ∧ e.data ≠ none)) ∧
    ((∀ v, getPdfDetailHandle path raw = Except.ok v → checkDetail v = true) ∧
     (∀ e, getPdfDetailHandle path raw = Except.error e →
        checkDetail raw = false ∧ checkDetail (normalizeDetail raw) = false ∧
        e.status = 200 ∧ e.data ≠ none)) ∧
    (checkSearchResponse raw = false →
       searchPdfHandle path raw =
         Except.error ⟨"Invalid API response shape".data, 200, path, some raw⟩) ∧
    (checkPageUrl raw = false →
       pageUrlHandle path raw =
         Except.error ⟨"Invalid API response shape".data, 200, path, some raw⟩) := by
  refine ⟨⟨?_, ?_, ?_⟩, ⟨?_, ?_⟩, ?_, ?_⟩
  · intro v hv
    unfold listPdfsHandle at hv
    by_cases h1 : checkListResponse raw = true
    · rw [if_pos h1] at hv
      rw [← Except.ok.inj hv]
      exact h1
    · rw [if_neg h1] at hv
      by_cases h2 : checkListResponse (normalizeListResponse nowIso raw) = true
      · rw [if_pos h2] at hv
        rw [← Except.ok.inj hv]
        exact h2
      · rw [if_neg h2] at hv
        unfold parseOrThrowB at hv
        by_cases h3 : checkListResponse (coerceListResponse nowIso raw) = true
        · rw [if_pos h3] at hv
          rw [← Except.ok.inj hv]
          exact h3
        · rw [if_neg h3] at hv
          exact absurd hv (by simp)
  · intro h1 h2
    unfold listPdfsHandle
    rw [if_neg (by simp [h1]), if_pos h2]
  · intro e he
    unfold listPdfsHandle at he
    by_cases h1 : checkListResponse raw = true
    · rw [if_pos h1] at he
      exact absurd he (by simp)
    · rw [if_neg h1] at he
      by_cases h2 : checkListResponse (normalizeListResponse nowIso raw) = true
      · rw [if_pos h2] at he
        exact absurd he (by simp)
      · rw [if_neg h2] at he
        unfold parseOrThrowB at he
        by_cases h3 : checkListResponse (coerceListResponse nowIso raw) = true
        · rw [if_pos h3] at he
          exact absurd he (by simp)
        · rw [if_neg h3] at he
          have hee := Except.error.inj he
          refine ⟨by simpa using h1, by simpa using h2, by simpa using h3, ?_, ?_⟩
          · rw [← hee]
          · rw [← hee]
            simp
  · intro v hv
    unfold getPdfDetailHandle at hv
    by_cases h1 : checkDetail raw = true
    · rw [if_pos h1] at hv
      rw [← Except.ok.inj hv]
      exact h1
    · rw [if_neg h1] at hv
      unfold parseOrThrowB at hv
      by_cases h2 : checkDetail (normalizeDetail raw) = true
      · rw [if_pos h2] at hv
        rw [← Except.ok.inj hv]
        exact h2
      · rw [if_neg h2] at hv
        exact absurd hv (by simp)
  · intro e he
    unfold getPdfDetailHandle at he
    by_cases h1 : checkDetail raw = true
    · rw [if_pos h1] at he
      exact absurd he (by simp)
    · rw [if_neg h1] at he
      unfold parseOrThrowB at he
      by_cases h2 : checkDetail (normalizeDetail raw) = true
      · rw [if_pos h2] at he
        exact absurd he (by simp)
      · rw [if_neg h2] at he
        have hee := Except.error.inj he
        refine ⟨by simpa using h1, by simpa using h2, ?_, ?_⟩
        · rw [← hee]
        · rw [← hee]
          simp
  · intro h1
    unfold searchPdfHandle parseOrThrowB
    rw [if_neg (by simp [h1])]
  · intro h1
    unfold pageUrlHandle parseOrThrowB
    rw [if_neg (by simp [h1])]

/-- Witness for C7, matching the spec's normalization example: a list
response whose item has name X but no title or id fails strict
validation, normalizes to title X with a placeholder id, and the
normalized value re-validates and is returned. -/
theorem validation_pipeline_witness :
    listPdfsHandle "2024-02-02T00:00:00Z".data "/pdfs".data
      (JVal.obj [("items".data, JVal.arr [JVal.obj
        [("name".data, JVal.str "X".data), ("pages".data, JVal.num 3),
         ("updatedAt".data, JVal.str "2024-01-01T00:00:00Z".data)]])]) =
      Except.ok (normalizeListResponse "2024-02-02T00:00:00Z".data
        (JVal.obj [("items".data, JVal.arr [JVal.obj
          [("name".data, JVal.str "X".data), ("pages".data, JVal.num 3),
           ("updatedAt".data, JVal.str "2024-01-01T00:00:00Z".data)]])])) := by
  exact (validation_pipeline "2024-02-02T00:00:00Z".data "/pdfs".data
      (JVal.obj [("items".data, JVal.arr [JVal.obj
        [("name".data, JVal.str "X".data), ("pages".data, JVal.num 3),
         ("updatedAt".data, JVal.str "2024-01-01T00:00:00Z".data)]])])).1.2.1
      (by decide) (by decide)

end AspectNova
